import Mathlib

/-!
Verification development for the `watercooler` front-end (`src/public/app.js`).

The 3D village view keeps module state (`config`, `messages`, `allMessages`,
`recipients`, `avatarStates`, `agentMeshes`, `connectionLines`) that is
refreshed by `loadData` every 5 seconds and reconciled into the scene by
`updateVillage`.  Below is a shallow embedding of that state and of the
functions the specification talks about:

* `getAgentColor` (app.js lines 19-30): name-hash driven palette lookup.
  JavaScript `<<` works on 32-bit signed integers, so the shift is modelled
  with an explicit wrap `toInt32`; all other arithmetic on the hash stays
  exact (JS doubles are exact for these magnitudes).  A `Char` models
  one UTF-16 code unit (exact for identities within the BMP).
* `loadData` (lines 1147-1182): fetch/parse outcomes become explicit
  `Except`/`Payload` inputs; the function maps an previous `AppData`
  snapshot to the next one following the exact sequencing of the source
  (`config` is assigned before the other three payloads are parsed).
* `updateVillage` (lines 979-1056) with its helpers `clearConnections`
  (974-977), `createAgentDesk` (615-825), `updateDeskLabel` (827-867),
  `createConnectionLine` (916-972) and `updateDeskLabels` (1526-1602).
  Entity positions are kept in polar form: the source computes
  `x = cos(angle)*radius`, `z = sin(angle)*radius`, so the pair
  (angle, radius) plus the height `y` determines the position; angles are
  stored as rational multiples of pi (the source angle is
  `(i / N) * 2*pi - pi/2`, stored here as the coefficient `2*i/N - 1/2`).
  GPU-resource handling (`dispose()` calls) is tracked by resource labels
  so that the disposal claims can be stated.
-/

/-- One row of the `messages` table as served by the backend
(`{id, sender, recipient, message, timestamp, read}`). -/
structure Message where
  id : Nat
  sender : String
  recipient : String
  message : String
  timestamp : Nat
  read : Bool
deriving DecidableEq, Repr

/-- The `/api/config` payload `{user, mailbox, coworker?, avatar?}`. -/
structure Config where
  user : String
  mailbox : String
  coworker : Option String
  avatar : Option String
deriving DecidableEq, Repr

/-- JavaScript `toLowerCase()` on identity strings, modelled per character
(exact for the ASCII identities the app compares). -/
def jsToLower (s : String) : String := String.mk (s.data.map Char.toLower)

/- ------------------------------------------------------------------ -/
/- getAgentColor (app.js 19-30)                                        -/
/- ------------------------------------------------------------------ -/

/-- The agent color palette (app.js lines 19-22), ten entries. -/
def agentColors : List Nat :=
  [0x5EEAD4, 0x6EE7B7, 0x7DD3FC, 0xA78BFA, 0xFBBF24,
   0xF9A8D4, 0x86EFAC, 0x93C5FD, 0xC4B5FD, 0x67E8F9]

/-- JavaScript `ToInt32`: wrap an exact integer into `[-2^31, 2^31)`. -/
def toInt32 (n : Int) : Int := (n + 2 ^ 31) % 2 ^ 32 - 2 ^ 31

/-- JavaScript `h << 5`: both the operand and the result are wrapped to
32-bit signed range. -/
def jsShl5 (h : Int) : Int := toInt32 (toInt32 h * 32)

/-- One iteration of the loop body `hash = name.charCodeAt(i) + ((hash << 5) - hash)`. -/
def hashStep (h : Int) (c : Nat) : Int := (c : Int) + (jsShl5 h - h)

/-- The hash loop of `getAgentColor` (app.js lines 25-28), folding over the
string's code units starting from `hash = 0`. -/
def stringHash (s : String) : Int := s.data.foldl (fun h c => hashStep h c.toNat) 0

/-- `getAgentColor` (app.js lines 24-30):
`agentColors[Math.abs(hash) % agentColors.length]`. -/
def getAgentColor (s : String) : Nat :=
  agentColors.getD ((stringHash s).natAbs % agentColors.length) 0

/-- Claim-side hash: iterating `hash = charCode + ((hash << 5) - hash)` over
the characters starting from 0, written as explicit recursion. -/
def specHashFrom (h : Int) : List Char → Int
  | [] => h
  | c :: cs => specHashFrom ((c.toNat : Int) + (jsShl5 h - h)) cs

/-- Claim-side palette index: `|h| mod P` for the rolling hash `h` and the
fixed palette size `P`. -/
def specPaletteIndex (s : String) : Nat :=
  (specHashFrom 0 s.data).natAbs % agentColors.length

theorem specHashFrom_eq_foldl (l : List Char) : ∀ h : Int,
    specHashFrom h l = l.foldl (fun h c => hashStep h c.toNat) h := by
  induction l with
  | nil => intro h; rfl
  | cons c cs ih => intro h; simp [specHashFrom, List.foldl, hashStep, ih]

theorem stringHash_eq_specHash (s : String) : stringHash s = specHashFrom 0 s.data := by
  rw [specHashFrom_eq_foldl]; rfl

/- ------------------------------------------------------------------ -/
/- loadData (app.js 1147-1182)                                         -/
/- ------------------------------------------------------------------ -/

/-- A parsed JSON body for an endpoint that is expected to serve an array:
either an actual array or some non-array JSON value (for example an
`{error: ...}` object served on a backend failure). -/
inductive Payload (α : Type) where
  | arr (xs : List α)
  | obj
deriving DecidableEq, Repr

/-- The `Array.isArray(x) ? x : []` validation applied by `loadData`
(app.js lines 1162-1164). -/
def payloadList {α : Type} : Payload α → List α
  | .arr xs => xs
  | .obj => []

/-- The outcome of one poll cycle's fetch-and-parse phase, one entry per
`loadData` await point.  `ok = false` models the `Promise.all` of the four
fetches rejecting (network failure); each `.error` models the corresponding
`res.json()` call throwing (body that is not valid JSON). -/
structure FetchResults where
  ok : Bool
  configJson : Except Unit Config
  messagesJson : Except Unit (Payload Message)
  coworkersJson : Except Unit (Payload String)
  allMessagesJson : Except Unit (Payload Message)

/-- The four module-level state variables that `loadData` assigns. -/
structure AppData where
  config : Config
  messages : List Message
  recipients : List String
  allMessages : List Message
deriving DecidableEq, Repr

/-- Shallow embedding of `loadData` (app.js lines 1147-1182), mapping the
previous state to the next one given this cycle's fetch/parse outcomes.
The sequencing mirrors the source: any fetch rejection aborts the cycle
inside the `try` before anything is assigned; `config` is assigned as soon
as its own body parses; the three collection variables are assigned
together only after all three of their bodies parse, each defended by
`Array.isArray`. -/
def loadData (r : FetchResults) (st : AppData) : AppData :=
  if r.ok = false then st
  else
    match r.configJson with
    | .error _ => st
    | .ok cfg =>
      let st1 := { st with config := cfg }
      match r.messagesJson, r.coworkersJson, r.allMessagesJson with
      | .ok md, .ok rd, .ok ad =>
        { st1 with
          messages := payloadList md
          recipients := payloadList rd
          allMessages := payloadList ad }
      | _, _, _ => st1

/- ------------------------------------------------------------------ -/
/- Scene data model (createAgentDesk, app.js 615-825)                  -/
/- ------------------------------------------------------------------ -/

/-- One child of an agent's desk group.  Three.js children carry
`isMesh`/`isSprite` flags that the disposal traverse inspects; geometry,
material and texture objects are identified here by resource labels. -/
inductive Child where
  | mesh (geom mat : String)
  | light
  | sprite (mat tex : String)
deriving DecidableEq, Repr

/-- The background/border tint of a desk nameplate: `alert` is the red
state (unread messages from the agent to the viewer), `info` the blue
state (unread messages the viewer sent to the agent), `neutral` the
frosted-glass state (app.js lines 1552-1571). -/
inductive LabelStyle where
  | neutral
  | info
  | alert
deriving DecidableEq, Repr

/-- Content of a rendered nameplate texture: tint, name text, the unread
count baked into the text when present, and the optional tool line. -/
structure Label where
  style : LabelStyle
  name : String
  count : Option Nat
  tool : Option String
deriving DecidableEq, Repr

/-- The label rendered by `createAgentDesk` (app.js 781-809) and by
`updateDeskLabel` (app.js 827-867): always the neutral style, no count. -/
def baseLabel (name : String) (tool : Option String) : Label :=
  { style := .neutral, name := name, count := none, tool := tool }

/-- An agent entity: the desk group created by `createAgentDesk`.
Position is polar: `angle` is the coefficient of pi in the placement
angle, `radius` the layout circle radius, `y` the platform height. -/
structure Entity where
  name : String
  angle : ℚ
  radius : ℚ
  y : ℚ
  color : Nat
  children : List Child
  label : Label
deriving DecidableEq, Repr

/-- The fixed child list built by `createAgentDesk` (app.js 615-825), in
creation order: desk top, four legs, chair seat/back/post, five base arms,
body, head, two arms, monitor stand/neck/frame/display, screen light,
keyboard, and the nameplate sprite with its material and canvas texture. -/
def deskChildren : List Child :=
  [Child.mesh "deskTopGeo" "deskMat",
   Child.mesh "legGeo" "legMat", Child.mesh "legGeo" "legMat",
   Child.mesh "legGeo" "legMat", Child.mesh "legGeo" "legMat",
   Child.mesh "chairSeatGeo" "chairMat",
   Child.mesh "chairBackGeo" "chairMat",
   Child.mesh "chairPostGeo" "legMat",
   Child.mesh "chairArmGeo" "legMat", Child.mesh "chairArmGeo" "legMat",
   Child.mesh "chairArmGeo" "legMat", Child.mesh "chairArmGeo" "legMat",
   Child.mesh "chairArmGeo" "legMat",
   Child.mesh "bodyGeo" "bodyMat",
   Child.mesh "headGeo" "headMat",
   Child.mesh "armObjGeo" "armMat", Child.mesh "armObjGeo" "armMat",
   Child.mesh "monitorStandGeo" "monitorMat",
   Child.mesh "monitorNeckGeo" "monitorMat",
   Child.mesh "screenFrameGeo" "monitorMat",
   Child.mesh "screenDisplayGeo" "screenDisplayMat",
   Child.light,
   Child.mesh "kbGeo" "kbMat",
   Child.sprite "spriteMat" "spriteTex"]

/-- Three.js `isSprite` flag of a child. -/
def Child.isSpriteFlag : Child → Bool
  | .sprite _ _ => true
  | _ => false

/-- Whether the group has a sprite child (`group.children.find(c => c.isSprite)`
succeeding, app.js line 1543). -/
def Entity.hasSprite (e : Entity) : Bool := e.children.any Child.isSpriteFlag

/-- The resources released for one child by the disposal traverse of
`updateVillage` (app.js lines 1023-1034): for children with `isMesh`,
`geometry.dispose()` and `material.dispose()`; sprites and lights are not
meshes, so nothing of theirs is released. -/
def disposeChild : Child → List String
  | .mesh g m => [g, m]
  | .light => []
  | .sprite _ _ => []

/-- All resource labels released when an entity's group is traversed for
disposal (app.js lines 1023-1034). -/
def disposeGroup (e : Entity) : List String := e.children.flatMap disposeChild

/- ------------------------------------------------------------------ -/
/- The identity -> entity map (the agentMeshes JS Map)                 -/
/- ------------------------------------------------------------------ -/

/-- The `agentMeshes` map, modelled as an insertion-ordered association
list, the iteration order of a JavaScript `Map`. -/
abbrev EMap : Type := List (String × Entity)

/-- Lookup (`agentMeshes.get`). -/
def emGet : EMap → String → Option Entity
  | [], _ => none
  | p :: ps, k => if p.1 = k then some p.2 else emGet ps k

/-- Keys in iteration order. -/
def emKeys (m : EMap) : List String := m.map Prod.fst

/-- Replace the value at every occurrence of an existing key. -/
def emReplace : EMap → String → Entity → EMap
  | [], _, _ => []
  | p :: ps, k, v => if p.1 = k then (k, v) :: emReplace ps k v else p :: emReplace ps k v

/-- `agentMeshes.set`: replace in place when the key exists, append
otherwise (JavaScript Map insertion-order semantics). -/
def emSet (m : EMap) (k : String) (v : Entity) : EMap :=
  if k ∈ emKeys m then emReplace m k v else m ++ [(k, v)]

/- ------------------------------------------------------------------ -/
/- updateVillage (app.js 979-1056)                                     -/
/- ------------------------------------------------------------------ -/

/-- The module state read by one `updateVillage` pass: `config.user`,
`recipients`, `messages` (the inbox), `allMessages` (full history) and
`avatarStates` (identity to latest `tool_name`). -/
structure Snapshot where
  user : String
  recipients : List String
  messages : List Message
  allMessages : List Message
  avatars : List (String × String)
deriving DecidableEq, Repr

/-- Adding one element to a JavaScript `Set`: keeps insertion order,
ignores elements already present. -/
def addAgent (xs : List String) (x : String) : List String :=
  if x ∈ xs then xs else xs ++ [x]

/-- The authoritative identity list computed at the top of `updateVillage`
(app.js lines 982-992): the `Set` seeded with the lowercased local user and
lowercased roster entries, then extended with the lowercased sender and
recipient of every inbox message (`messages`, the messages addressed to the
user), in insertion order (`Array.from`). -/
def allAgentsList (s : Snapshot) : List String :=
  let base := (jsToLower s.user :: s.recipients.map jsToLower).foldl addAgent []
  s.messages.foldl
    (fun acc m => addAgent (addAgent acc (jsToLower m.sender)) (jsToLower m.recipient)) base

/-- The layout circle radius `Math.min(20, Math.max(10, agents.length * 3))`
(app.js line 993). -/
def layoutRadius (n : Nat) : ℚ := min 20 (max 10 (3 * (n : ℚ)))

/-- The placement angle for index `i` of `n`, as a coefficient of pi: the
source angle (app.js line 996) is `(i / n) * Math.PI * 2 - Math.PI / 2`,
that is `(2 * i / n - 1 / 2) * pi`. -/
def layoutAngleQ (i n : Nat) : ℚ := 2 * (i : ℚ) / (n : ℚ) - 1 / 2

/-- The platform height `PLATFORM_HEIGHT` (app.js line 34). -/
def platformHeight : ℚ := 2

/-- `avatarStates[jsToLower agentCase()]?.tool_name || null` (app.js lines
1001-1002): association lookup; an empty tool name is falsy in JavaScript
and collapses to `null`. -/
def lookupTool (avatars : List (String × String)) (agent : String) : Option String :=
  match avatars.find? (fun p => p.1 == jsToLower agent) with
  | some p => if p.2 = "" then none else some p.2
  | none => none

/-- The entity built by `createAgentDesk agent position toolName`
(app.js 615-825): colored by `getAgentColor`, positioned on the layout
circle at platform height, carrying the fixed desk children and a fresh
neutral nameplate. -/
def createDeskEntity (agent : String) (angle radius : ℚ) (tool : Option String) : Entity :=
  { name := agent
    angle := angle
    radius := radius
    y := platformHeight
    color := getAgentColor agent
    children := deskChildren
    label := baseLabel agent tool }

/-- The survivor update of `updateVillage` (app.js lines 1008-1012):
`desk.position.set(x, PLATFORM_HEIGHT, z)` plus `updateDeskLabel`, which
re-renders the nameplate in the neutral style. -/
def repositionEntity (e : Entity) (agent : String) (angle radius : ℚ)
    (tool : Option String) : Entity :=
  { e with angle := angle, radius := radius, y := platformHeight
           label := baseLabel agent tool }

/-- Accumulator for the placement loop: the evolving map, the scene roots,
the identities created this pass, and the number of `updateDeskLabel`
texture regenerations performed. -/
structure PlaceAcc where
  m : EMap
  scene : List String
  created : List String
  regens : Nat
deriving Repr

/-- One iteration of the `agents.forEach((agent, index) => ...)` loop of
`updateVillage` (app.js lines 995-1014). -/
def placeStep (snap : Snapshot) (n : Nat) (radius : ℚ) (acc : PlaceAcc)
    (p : Nat × String) : PlaceAcc :=
  let tool := lookupTool snap.avatars p.2
  match emGet acc.m p.2 with
  | none =>
    let e := createDeskEntity p.2 (layoutAngleQ p.1 n) radius tool
    { m := emSet acc.m p.2 e
      scene := acc.scene ++ [p.2]
      created := acc.created ++ [p.2]
      regens := acc.regens }
  | some e =>
    { acc with
      m := emSet acc.m p.2 (repositionEntity e p.2 (layoutAngleQ p.1 n) radius tool)
      regens := acc.regens + 1 }

/-- The placement loop run over the index-annotated agent list. -/
def placeAgents (snap : Snapshot) (n : Nat) (radius : ℚ) :
    List (Nat × String) → PlaceAcc → PlaceAcc
  | [], acc => acc
  | p :: ps, acc => placeAgents snap n radius ps (placeStep snap n radius acc p)

/-- Index annotation of `forEach` callbacks: element with its position. -/
def withIdx {α : Type} (k : Nat) : List α → List (Nat × α)
  | [] => []
  | a :: as => (k, a) :: withIdx (k + 1) as

/-- The stale-entity sweep of `updateVillage` (app.js lines 1016-1039):
entries whose key is no longer authoritative are dropped from the map; for
each, the disposal traverse's released resources are recorded. -/
def removeStale (agents : List String) (m : EMap) :
    EMap × List (String × List String) :=
  (m.filter (fun p => decide (p.1 ∈ agents)),
   (m.filter (fun p => decide (p.1 ∉ agents))).map (fun p => (p.1, disposeGroup p.2)))

/-- One object pushed onto `connectionLines`: the connector line built by
`createConnectionLine` or one of its four chevron direction markers
(app.js lines 916-967).  Endpoints are recorded by identity. -/
inductive ConnObj where
  | line (sender recipient : String)
  | marker (sender recipient : String) (k : Nat)
deriving DecidableEq, Repr

/-- Whether the object is the connector line itself. -/
def ConnObj.isLine : ConnObj → Bool
  | .line _ _ => true
  | .marker _ _ _ => false

/-- Everything one `createConnectionLine` call pushes onto
`connectionLines` and adds to the scene: the curved line plus
`numMarkers = 4` chevron markers (app.js lines 935-967). -/
def connectorParts (s r : String) : List ConnObj :=
  ConnObj.line s r :: (List.range 4).map (fun k => ConnObj.marker s r k)

/-- The connector objects contributed by one message (app.js lines
1042-1052): both endpoints must resolve in `agentMeshes` and the message
must be unread, otherwise nothing is built. -/
def msgConn (m : EMap) (msg : Message) : List ConnObj :=
  match emGet m (jsToLower msg.sender), emGet m (jsToLower msg.recipient) with
  | some _, some _ =>
    if msg.read then [] else connectorParts (jsToLower msg.sender) (jsToLower msg.recipient)
  | _, _ => []

/-- The connector-building loop over `allMessages` (app.js lines 1041-1052). -/
def buildConnectors (m : EMap) (msgs : List Message) : List ConnObj :=
  msgs.flatMap (msgConn m)

/-- The nameplate rendered by `updateDeskLabels` for one agent: the count of
unread messages the viewer sent to the agent (app.js lines 1528-1532). -/
def unreadToCount (user : String) (msgs : List Message) (name : String) : Nat :=
  (msgs.filter (fun m =>
    jsToLower m.recipient == jsToLower name && jsToLower m.sender == jsToLower user && !m.read)).length

/-- The count of unread messages the agent sent to the viewer
(app.js lines 1534-1538). -/
def unreadFromCount (user : String) (msgs : List Message) (name : String) : Nat :=
  (msgs.filter (fun m =>
    jsToLower m.sender == jsToLower name && jsToLower m.recipient == jsToLower user && !m.read)).length

/-- The label content drawn by `updateDeskLabels` (app.js lines 1545-1599):
the alert tint with the from-agent count when that count is positive, else
the informational tint with the sent count when positive, else neutral. -/
def renderDeskLabel (user : String) (msgs : List Message) (name : String)
    (tool : Option String) : Label :=
  let uc := unreadToCount user msgs name
  let ua := unreadFromCount user msgs name
  if 0 < ua then { style := .alert, name := name, count := some ua, tool := tool }
  else if 0 < uc then { style := .info, name := name, count := some uc, tool := tool }
  else { style := .neutral, name := name, count := none, tool := tool }

/-- The per-entry body of `updateDeskLabels` (app.js lines 1527-1600): when
the group has a sprite, its nameplate texture is re-rendered from the
current snapshot; otherwise the entry is untouched. -/
def relabelEntity (snap : Snapshot) (k : String) (e : Entity) : Entity :=
  if e.hasSprite then
    { e with label := renderDeskLabel snap.user snap.allMessages k
                        (lookupTool snap.avatars k) }
  else e

/-- `updateDeskLabels` (app.js lines 1526-1602): every map entry whose group
has a sprite gets a freshly rendered nameplate texture; the second
component counts the regenerated textures. -/
def applyDeskLabels (snap : Snapshot) (m : EMap) : EMap × Nat :=
  (m.map (fun p => (p.1, relabelEntity snap p.1 p.2)),
   (m.filter (fun p => p.2.hasSprite)).length)

/-- The scene-side village state: the `agentMeshes` map, the identities
whose desk groups are in the scene graph, and the `connectionLines` array
(whose members are also the connector objects currently in the scene). -/
structure VState where
  agentMeshes : EMap
  sceneAgents : List String
  connectionLines : List ConnObj
deriving Repr

/-- Observable events of one `updateVillage` pass: identities created,
identities removed together with the resource labels actually released for
them, nameplate textures regenerated, and `dispose()` calls made while
clearing the previous cycle's connectors. -/
structure Events where
  created : List String
  removed : List (String × List String)
  labelRegens : Nat
  connDisposeCalls : Nat
deriving Repr

/-- Shallow embedding of `updateVillage` (app.js lines 979-1056):
`clearConnections` removes every previous connector object from the scene
and resets the array, calling no `dispose()`; the authoritative list is
computed; agents are placed or repositioned; stale entities are removed
from scene and map with their mesh resources disposed; connectors are
rebuilt from `allMessages` against the reconciled map; and
`updateDeskLabels` re-renders every nameplate. -/
def updateVillage (snap : Snapshot) (st : VState) : VState × Events :=
  let agents := allAgentsList snap
  let n := agents.length
  let radius := layoutRadius n
  let acc := placeAgents snap n radius (withIdx 0 agents)
    { m := st.agentMeshes, scene := st.sceneAgents, created := [], regens := 0 }
  let rs := removeStale agents acc.m
  let removedNames := rs.2.map Prod.fst
  let scene2 := acc.scene.filter (fun a => decide (a ∉ removedNames))
  let conns := buildConnectors rs.1 snap.allMessages
  let lab := applyDeskLabels snap rs.1
  ({ agentMeshes := lab.1, sceneAgents := scene2, connectionLines := conns },
   { created := acc.created, removed := rs.2,
     labelRegens := acc.regens + lab.2, connDisposeCalls := 0 })

/- ------------------------------------------------------------------ -/
/- Association-map lemmas                                              -/
/- ------------------------------------------------------------------ -/

theorem emGet_isSome_iff_mem (m : EMap) (k : String) :
    (emGet m k).isSome = true ↔ k ∈ emKeys m := by
  induction m with
  | nil => simp [emGet, emKeys]
  | cons p ps ih =>
    by_cases h : p.1 = k
    · simp [emGet, emKeys, h]
    · simp [emGet, emKeys, h, ih, Ne.symm h]

theorem emGet_mem (m : EMap) (k : String) (e : Entity) (h : emGet m k = some e) :
    (k, e) ∈ m := by
  induction m with
  | nil => simp [emGet] at h
  | cons p ps ih =>
    obtain ⟨a, b⟩ := p
    by_cases hp : a = k
    · simp [emGet, hp] at h
      subst hp
      subst h
      exact List.mem_cons_self _ _
    · simp [emGet, hp] at h
      exact List.mem_cons_of_mem _ (ih h)

theorem emKeys_replace (m : EMap) (k : String) (v : Entity) :
    emKeys (emReplace m k v) = emKeys m := by
  induction m with
  | nil => rfl
  | cons p ps ih =>
    by_cases h : p.1 = k
    · simp only [emReplace, if_pos h, emKeys, List.map_cons]
      rw [h]
      exact congrArg _ (by simpa [emKeys] using ih)
    · simp only [emReplace, if_neg h, emKeys, List.map_cons]
      exact congrArg _ (by simpa [emKeys] using ih)

theorem emKeys_set (m : EMap) (k : String) (v : Entity) :
    emKeys (emSet m k v) = if k ∈ emKeys m then emKeys m else emKeys m ++ [k] := by
  by_cases h : k ∈ emKeys m
  · rw [if_pos h]
    unfold emSet
    rw [if_pos h, emKeys_replace]
  · rw [if_neg h]
    unfold emSet
    rw [if_neg h]
    simp [emKeys]

theorem emKeys_set_nodup (m : EMap) (k : String) (v : Entity)
    (h : (emKeys m).Nodup) : (emKeys (emSet m k v)).Nodup := by
  rw [emKeys_set]
  by_cases hk : k ∈ emKeys m
  · simpa [hk]
  · simpa [hk, List.nodup_append] using h

theorem emGet_replace_self (m : EMap) (k : String) (v : Entity)
    (h : k ∈ emKeys m) : emGet (emReplace m k v) k = some v := by
  induction m with
  | nil => simp [emKeys] at h
  | cons p ps ih =>
    by_cases hp : p.1 = k
    · simp [emReplace, hp, emGet]
    · have : k ∈ emKeys ps := by
        simp [emKeys] at h ⊢
        rcases h with h | h
        · exact absurd h.symm (by simpa using hp)
        · simpa [emKeys] using h
      simp [emReplace, hp, emGet, ih this]

theorem emGet_append_right (m : EMap) (k : String) (v : Entity)
    (h : k ∉ emKeys m) : emGet (m ++ [(k, v)]) k = some v := by
  induction m with
  | nil => simp [emGet]
  | cons p ps ih =>
    have hp : p.1 ≠ k := by
      intro hk
      exact h (by simp [emKeys, hk])
    have : k ∉ emKeys ps := fun hm => h (by simp [emKeys] at hm ⊢; right; exact hm)
    simp [emGet, hp, ih this]

theorem emGet_set_self (m : EMap) (k : String) (v : Entity) :
    emGet (emSet m k v) k = some v := by
  by_cases h : k ∈ emKeys m
  · simp [emSet, h, emGet_replace_self _ _ _ h]
  · simp [emSet, h, emGet_append_right _ _ _ h]

theorem emGet_replace_ne (m : EMap) (k a : String) (v : Entity)
    (h : a ≠ k) : emGet (emReplace m k v) a = emGet m a := by
  induction m with
  | nil => rfl
  | cons p ps ih =>
    by_cases hp : p.1 = k
    · simp only [emReplace, if_pos hp, emGet]
      rw [if_neg (by simpa using Ne.symm h), if_neg (by rw [hp]; exact Ne.symm h), ih]
    · simp only [emReplace, if_neg hp, emGet, ih]

theorem emGet_set_ne (m : EMap) (k a : String) (v : Entity)
    (h : a ≠ k) : emGet (emSet m k v) a = emGet m a := by
  by_cases hk : k ∈ emKeys m
  · simp [emSet, hk, emGet_replace_ne _ _ _ _ h]
  · simp only [emSet, if_neg hk]
    induction m with
    | nil => simp [emGet, Ne.symm h]
    | cons p ps ih =>
      by_cases ha : p.1 = a
      · simp [emGet, ha]
      · have : k ∉ emKeys ps := fun hm => hk (by simp [emKeys] at hm ⊢; right; exact hm)
        simp [emGet, ha, ih this]

theorem emReplace_forall (k : String) (v : Entity) (P : String × Entity → Prop)
    (hv : P (k, v)) :
    ∀ m : EMap, (∀ p ∈ m, P p) → ∀ q ∈ emReplace m k v, P q := by
  intro m
  induction m with
  | nil =>
    intro _
    simp [emReplace]
  | cons r rs ih =>
    intro hm q hq
    by_cases hr : r.1 = k
    · simp only [emReplace, if_pos hr] at hq
      rcases List.mem_cons.mp hq with hq | hq
      · subst hq; exact hv
      · exact ih (fun p hp => hm p (List.mem_cons_of_mem _ hp)) q hq
    · simp only [emReplace, if_neg hr] at hq
      rcases List.mem_cons.mp hq with hq | hq
      · rw [hq]; exact hm r (List.mem_cons_self _ _)
      · exact ih (fun p hp => hm p (List.mem_cons_of_mem _ hp)) q hq

theorem emSet_forall (m : EMap) (k : String) (v : Entity)
    (P : String × Entity → Prop) (hm : ∀ p ∈ m, P p) (hv : P (k, v)) :
    ∀ p ∈ emSet m k v, P p := by
  by_cases hk : k ∈ emKeys m
  · intro p hp
    unfold emSet at hp
    rw [if_pos hk] at hp
    exact emReplace_forall k v P hv m hm p hp
  · intro p hp
    unfold emSet at hp
    rw [if_neg hk] at hp
    rcases List.mem_append.mp hp with hp | hp
    · exact hm p hp
    · rw [List.mem_singleton.mp hp]
      exact hv

theorem withIdx_map_snd {α : Type} (l : List α) : ∀ k, (withIdx k l).map Prod.snd = l := by
  induction l with
  | nil => intro k; rfl
  | cons a as ih => intro k; simp [withIdx, ih]

theorem withIdx_mem_get {α : Type} (l : List α) :
    ∀ (k : Nat) (j : Nat) (h : j < l.length), (k + j, l.get ⟨j, h⟩) ∈ withIdx k l := by
  induction l with
  | nil => intro k j h; simp at h
  | cons a as ih =>
    intro k j h
    cases j with
    | zero => simp [withIdx]
    | succ j =>
      have hj : j < as.length := Nat.lt_of_succ_lt_succ h
      have h2 := ih (k + 1) j hj
      have hget : (a :: as).get ⟨j + 1, h⟩ = as.get ⟨j, hj⟩ := rfl
      have hk : k + (j + 1) = k + 1 + j := by omega
      simp only [withIdx, List.mem_cons]
      right
      rw [hget, hk]
      exact h2

/- ------------------------------------------------------------------ -/
/- Authoritative identity list lemmas                                  -/
/- ------------------------------------------------------------------ -/

theorem mem_addAgent (xs : List String) (x a : String) :
    a ∈ addAgent xs x ↔ a ∈ xs ∨ a = x := by
  by_cases h : x ∈ xs
  · simp only [addAgent, if_pos h]
    constructor
    · exact fun ha => Or.inl ha
    · rintro (ha | rfl)
      · exact ha
      · exact h
  · simp [addAgent, if_neg h]

theorem addAgent_nodup (xs : List String) (x : String) (h : xs.Nodup) :
    (addAgent xs x).Nodup := by
  by_cases hx : x ∈ xs
  · simpa [addAgent, hx]
  · simpa [addAgent, hx, List.nodup_append] using h

theorem foldl_addAgent_nodup (l : List String) :
    ∀ xs : List String, xs.Nodup → (l.foldl addAgent xs).Nodup := by
  induction l with
  | nil => intro xs h; exact h
  | cons a as ih => intro xs h; exact ih _ (addAgent_nodup xs a h)

theorem mem_foldl_addAgent (l : List String) :
    ∀ (xs : List String) (a : String), a ∈ l.foldl addAgent xs ↔ a ∈ xs ∨ a ∈ l := by
  induction l with
  | nil => intro xs a; simp
  | cons b bs ih =>
    intro xs a
    rw [List.foldl_cons, ih, mem_addAgent]
    constructor
    · rintro ((h | h) | h)
      · exact Or.inl h
      · exact Or.inr (by simp [h])
      · exact Or.inr (by simp [h])
    · rintro (h | h)
      · exact Or.inl (Or.inl h)
      · rcases List.mem_cons.mp h with h | h
        · exact Or.inl (Or.inr h)
        · exact Or.inr h

theorem msgFold_nodup (msgs : List Message) :
    ∀ xs : List String, xs.Nodup →
      (msgs.foldl (fun acc m => addAgent (addAgent acc (jsToLower m.sender))
        (jsToLower m.recipient)) xs).Nodup := by
  induction msgs with
  | nil => intro xs h; exact h
  | cons m ms ih =>
    intro xs h
    exact ih _ (addAgent_nodup _ _ (addAgent_nodup _ _ h))

theorem mem_msgFold (msgs : List Message) :
    ∀ (xs : List String) (a : String),
      a ∈ msgs.foldl (fun acc m => addAgent (addAgent acc (jsToLower m.sender))
        (jsToLower m.recipient)) xs ↔
      a ∈ xs ∨ ∃ m ∈ msgs, a = jsToLower m.sender ∨ a = jsToLower m.recipient := by
  induction msgs with
  | nil => intro xs a; simp
  | cons m ms ih =>
    intro xs a
    rw [List.foldl_cons, ih, mem_addAgent, mem_addAgent]
    constructor
    · rintro (((h | h) | h) | h)
      · exact Or.inl h
      · exact Or.inr ⟨m, by simp, Or.inl h⟩
      · exact Or.inr ⟨m, by simp, Or.inr h⟩
      · rcases h with ⟨mm, hmm, hh⟩
        exact Or.inr ⟨mm, List.mem_cons_of_mem _ hmm, hh⟩
    · rintro (h | ⟨mm, hmm, hh⟩)
      · exact Or.inl (Or.inl (Or.inl h))
      · rcases List.mem_cons.mp hmm with rfl | hmm
        · rcases hh with hh | hh
          · exact Or.inl (Or.inl (Or.inr hh))
          · exact Or.inl (Or.inr hh)
        · exact Or.inr ⟨mm, hmm, hh⟩

theorem allAgents_nodup (s : Snapshot) : (allAgentsList s).Nodup := by
  unfold allAgentsList
  exact msgFold_nodup _ _ (foldl_addAgent_nodup _ _ List.nodup_nil)

theorem mem_allAgents (s : Snapshot) (a : String) :
    a ∈ allAgentsList s ↔
      a = jsToLower s.user ∨ a ∈ s.recipients.map jsToLower ∨
      ∃ m ∈ s.messages, a = jsToLower m.sender ∨ a = jsToLower m.recipient := by
  unfold allAgentsList
  rw [mem_msgFold, mem_foldl_addAgent]
  simp only [List.not_mem_nil, false_or, List.mem_cons]
  constructor
  · rintro ((h | h) | h)
    · exact Or.inl h
    · exact Or.inr (Or.inl h)
    · exact Or.inr (Or.inr h)
  · rintro (h | h | h)
    · exact Or.inl (Or.inl h)
    · exact Or.inl (Or.inr h)
    · exact Or.inr h

theorem user_mem_allAgents (s : Snapshot) : jsToLower s.user ∈ allAgentsList s :=
  (mem_allAgents s _).mpr (Or.inl rfl)

theorem allAgents_length_pos (s : Snapshot) : 0 < (allAgentsList s).length :=
  List.length_pos.mpr (fun h => by simpa [h] using user_mem_allAgents s)

/- ------------------------------------------------------------------ -/
/- Placement loop lemmas                                               -/
/- ------------------------------------------------------------------ -/

theorem createDeskEntity_hasSprite (agent : String) (angle radius : ℚ)
    (tool : Option String) :
    (createDeskEntity agent angle radius tool).hasSprite = true := rfl

theorem repositionEntity_children (e : Entity) (agent : String) (angle radius : ℚ)
    (tool : Option String) :
    (repositionEntity e agent angle radius tool).children = e.children := rfl

theorem placeAgents_get_not_mem (snap : Snapshot) (n : Nat) (r : ℚ) :
    ∀ (l : List (Nat × String)) (acc : PlaceAcc) (a : String),
      a ∉ l.map Prod.snd →
      emGet (placeAgents snap n r l acc).m a = emGet acc.m a := by
  intro l
  induction l with
  | nil => intro acc a _; rfl
  | cons p ps ih =>
    intro acc a ha
    have ha1 : a ≠ p.2 := fun h => ha (by simp [h])
    have ha2 : a ∉ ps.map Prod.snd := fun h => ha (by simp [h])
    rw [placeAgents, ih _ _ ha2]
    cases hg : emGet acc.m p.2 with
    | none => simp only [placeStep, hg]; exact emGet_set_ne _ _ _ _ ha1
    | some e => simp only [placeStep, hg]; exact emGet_set_ne _ _ _ _ ha1

theorem placeStep_get_self (snap : Snapshot) (n : Nat) (r : ℚ) (acc : PlaceAcc)
    (p : Nat × String) :
    ∃ e, emGet (placeStep snap n r acc p).m p.2 = some e ∧
      e.angle = layoutAngleQ p.1 n ∧ e.radius = r ∧ e.y = platformHeight := by
  cases hg : emGet acc.m p.2 with
  | none =>
    refine ⟨createDeskEntity p.2 (layoutAngleQ p.1 n) r (lookupTool snap.avatars p.2),
      ?_, rfl, rfl, rfl⟩
    simp only [placeStep, hg]
    exact emGet_set_self _ _ _
  | some e =>
    refine ⟨repositionEntity e p.2 (layoutAngleQ p.1 n) r (lookupTool snap.avatars p.2),
      ?_, rfl, rfl, rfl⟩
    simp only [placeStep, hg]
    exact emGet_set_self _ _ _

theorem placeAgents_get_mem (snap : Snapshot) (n : Nat) (r : ℚ) :
    ∀ (l : List (Nat × String)) (acc : PlaceAcc) (i : Nat) (a : String),
      (l.map Prod.snd).Nodup → (i, a) ∈ l →
      ∃ e, emGet (placeAgents snap n r l acc).m a = some e ∧
        e.angle = layoutAngleQ i n ∧ e.radius = r ∧ e.y = platformHeight := by
  intro l
  induction l with
  | nil => intro acc i a _ h; simp at h
  | cons p ps ih =>
    intro acc i a hnd hmem
    rw [List.map_cons] at hnd
    obtain ⟨hhead, htail⟩ := List.nodup_cons.mp hnd
    rcases List.mem_cons.mp hmem with heq | hmem
    · subst heq
      have step := placeStep_get_self snap n r acc (i, a)
      rw [placeAgents, placeAgents_get_not_mem snap n r ps _ a (by simpa using hhead)]
      simpa using step
    · rw [placeAgents]
      exact ih _ i a htail hmem

theorem mem_keys_placeStep (snap : Snapshot) (n : Nat) (r : ℚ) (acc : PlaceAcc)
    (p : Nat × String) (k : String) :
    k ∈ emKeys (placeStep snap n r acc p).m ↔ k ∈ emKeys acc.m ∨ k = p.2 := by
  cases hg : emGet acc.m p.2 with
  | none =>
    have hnm : p.2 ∉ emKeys acc.m := by
      rw [← emGet_isSome_iff_mem]; simp [hg]
    simp only [placeStep, hg]
    rw [emKeys_set, if_neg hnm]
    simp
  | some e =>
    have hm : p.2 ∈ emKeys acc.m := (emGet_isSome_iff_mem _ _).mp (by simp [hg])
    simp only [placeStep, hg]
    rw [emKeys_set, if_pos hm]
    constructor
    · exact fun h => Or.inl h
    · rintro (h | rfl)
      · exact h
      · exact hm

theorem mem_keys_placeAgents (snap : Snapshot) (n : Nat) (r : ℚ) :
    ∀ (l : List (Nat × String)) (acc : PlaceAcc) (k : String),
      k ∈ emKeys (placeAgents snap n r l acc).m ↔
        k ∈ emKeys acc.m ∨ k ∈ l.map Prod.snd := by
  intro l
  induction l with
  | nil => intro acc k; simp [placeAgents]
  | cons p ps ih =>
    intro acc k
    rw [placeAgents, ih, mem_keys_placeStep]
    constructor
    · rintro ((h | h) | h)
      · exact Or.inl h
      · exact Or.inr (by simp [h])
      · exact Or.inr (by simp [h])
    · rintro (h | h)
      · exact Or.inl (Or.inl h)
      · rcases (by simpa using h : k = p.2 ∨ k ∈ ps.map Prod.snd) with h | h
        · exact Or.inl (Or.inr h)
        · exact Or.inr h

theorem keys_placeStep_nodup (snap : Snapshot) (n : Nat) (r : ℚ) (acc : PlaceAcc)
    (p : Nat × String) (h : (emKeys acc.m).Nodup) :
    (emKeys (placeStep snap n r acc p).m).Nodup := by
  cases hg : emGet acc.m p.2 with
  | none => simp only [placeStep, hg]; exact emKeys_set_nodup _ _ _ h
  | some e => simp only [placeStep, hg]; exact emKeys_set_nodup _ _ _ h

theorem keys_placeAgents_nodup (snap : Snapshot) (n : Nat) (r : ℚ) :
    ∀ (l : List (Nat × String)) (acc : PlaceAcc),
      (emKeys acc.m).Nodup → (emKeys (placeAgents snap n r l acc).m).Nodup := by
  intro l
  induction l with
  | nil => intro acc h; exact h
  | cons p ps ih =>
    intro acc h
    rw [placeAgents]
    exact ih _ (keys_placeStep_nodup snap n r acc p h)

theorem placeAgents_sprite (snap : Snapshot) (n : Nat) (r : ℚ) :
    ∀ (l : List (Nat × String)) (acc : PlaceAcc),
      (∀ p ∈ acc.m, p.2.hasSprite = true) →
      ∀ p ∈ (placeAgents snap n r l acc).m, p.2.hasSprite = true := by
  intro l
  induction l with
  | nil => intro acc h; exact h
  | cons p ps ih =>
    intro acc h
    rw [placeAgents]
    refine ih _ ?_
    cases hg : emGet acc.m p.2 with
    | none =>
      simp only [placeStep, hg]
      exact emSet_forall _ _ _ _ h (createDeskEntity_hasSprite _ _ _ _)
    | some e =>
      simp only [placeStep, hg]
      refine emSet_forall _ _ _ _ h ?_
      show (repositionEntity e p.2 (layoutAngleQ p.1 n) r
        (lookupTool snap.avatars p.2)).hasSprite = true
      have he : e.hasSprite = true := h _ (emGet_mem _ _ _ hg)
      simpa [Entity.hasSprite, repositionEntity_children] using he

theorem placeAgents_all_present (snap : Snapshot) (n : Nat) (r : ℚ) :
    ∀ (l : List (Nat × String)) (acc : PlaceAcc),
      (∀ p ∈ l, p.2 ∈ emKeys acc.m) →
      (placeAgents snap n r l acc).created = acc.created ∧
      (placeAgents snap n r l acc).regens = acc.regens + l.length ∧
      emKeys (placeAgents snap n r l acc).m = emKeys acc.m := by
  intro l
  induction l with
  | nil => intro acc _; exact ⟨rfl, rfl, rfl⟩
  | cons p ps ih =>
    intro acc h
    have hp : p.2 ∈ emKeys acc.m := h p (List.mem_cons_self _ _)
    obtain ⟨e, hg⟩ : ∃ e, emGet acc.m p.2 = some e := by
      have := (emGet_isSome_iff_mem acc.m p.2).mpr hp
      exact Option.isSome_iff_exists.mp this
    have hkeys : emKeys (placeStep snap n r acc p).m = emKeys acc.m := by
      simp only [placeStep, hg]
      rw [emKeys_set, if_pos hp]
    have hrest : ∀ q ∈ ps, q.2 ∈ emKeys (placeStep snap n r acc p).m := by
      intro q hq
      rw [hkeys]
      exact h q (List.mem_cons_of_mem _ hq)
    obtain ⟨h1, h2, h3⟩ := ih (placeStep snap n r acc p) hrest
    refine ⟨?_, ?_, ?_⟩
    · rw [placeAgents, h1]; simp [placeStep, hg]
    · rw [placeAgents, h2]; simp [placeStep, hg, List.length_cons]; omega
    · rw [placeAgents, h3, hkeys]

/- ------------------------------------------------------------------ -/
/- Stale-entity sweep lemmas                                           -/
/- ------------------------------------------------------------------ -/

theorem emKeys_removeStale (agents : List String) (m : EMap) :
    emKeys (removeStale agents m).1 = (emKeys m).filter (fun k => decide (k ∈ agents)) := by
  induction m with
  | nil => rfl
  | cons p ps ih =>
    by_cases h : p.1 ∈ agents
    · simp [removeStale, emKeys, h] at ih ⊢
      simpa [emKeys] using ih
    · simp [removeStale, emKeys, h] at ih ⊢
      simpa [emKeys] using ih

theorem mem_keys_removeStale (agents : List String) (m : EMap) (k : String) :
    k ∈ emKeys (removeStale agents m).1 ↔ k ∈ emKeys m ∧ k ∈ agents := by
  rw [emKeys_removeStale, List.mem_filter]
  simp

theorem keys_removeStale_nodup (agents : List String) (m : EMap)
    (h : (emKeys m).Nodup) : (emKeys (removeStale agents m).1).Nodup := by
  rw [emKeys_removeStale]
  exact h.filter _

theorem emGet_filter_of_mem (agents : List String) (k : String) (hk : k ∈ agents) :
    ∀ m : EMap, emGet (m.filter (fun p => decide (p.1 ∈ agents))) k = emGet m k := by
  intro m
  induction m with
  | nil => rfl
  | cons p ps ih =>
    by_cases hp : p.1 = k
    · have hmem : p.1 ∈ agents := by rw [hp]; exact hk
      rw [List.filter_cons, if_pos (by simpa using hmem)]
      simp [emGet, hp]
    · by_cases hmem : p.1 ∈ agents
      · rw [List.filter_cons, if_pos (by simpa using hmem)]
        simp [emGet, hp]
        exact ih
      · rw [List.filter_cons, if_neg (by simpa using hmem)]
        simp [emGet, hp]
        exact ih

theorem emGet_removeStale_mem (agents : List String) (m : EMap) (k : String)
    (hk : k ∈ agents) : emGet (removeStale agents m).1 k = emGet m k :=
  emGet_filter_of_mem agents k hk m

theorem removeStale_sprite (agents : List String) (m : EMap)
    (h : ∀ p ∈ m, p.2.hasSprite = true) :
    ∀ p ∈ (removeStale agents m).1, p.2.hasSprite = true := by
  intro p hp
  exact h p (List.mem_filter.mp hp).1

theorem removeStale_removed_nil (agents : List String) (m : EMap)
    (h : ∀ p ∈ m, p.1 ∈ agents) : (removeStale agents m).2 = [] := by
  unfold removeStale
  rw [List.map_eq_nil_iff, List.filter_eq_nil_iff]
  intro a ha
  simpa using h a ha

/- ------------------------------------------------------------------ -/
/- Label pass lemmas                                                   -/
/- ------------------------------------------------------------------ -/

theorem relabelEntity_children (snap : Snapshot) (k : String) (e : Entity) :
    (relabelEntity snap k e).children = e.children := by
  unfold relabelEntity
  by_cases h : e.hasSprite <;> simp [h]

theorem relabelEntity_fields (snap : Snapshot) (k : String) (e : Entity) :
    (relabelEntity snap k e).angle = e.angle ∧
    (relabelEntity snap k e).radius = e.radius ∧
    (relabelEntity snap k e).y = e.y := by
  unfold relabelEntity
  by_cases h : e.hasSprite <;> simp [h]

theorem emGet_applyDeskLabels (snap : Snapshot) (m : EMap) (k : String) :
    emGet (applyDeskLabels snap m).1 k = (emGet m k).map (relabelEntity snap k) := by
  induction m with
  | nil => rfl
  | cons p ps ih =>
    by_cases hp : p.1 = k
    · subst hp
      simp [applyDeskLabels, emGet]
    · simp only [applyDeskLabels, List.map_cons, emGet, hp, if_false]
      simpa [applyDeskLabels] using ih

theorem emKeys_applyDeskLabels (snap : Snapshot) (m : EMap) :
    emKeys (applyDeskLabels snap m).1 = emKeys m := by
  simp [applyDeskLabels, emKeys, List.map_map]

theorem applyDeskLabels_sprite (snap : Snapshot) (m : EMap)
    (h : ∀ p ∈ m, p.2.hasSprite = true) :
    ∀ p ∈ (applyDeskLabels snap m).1, p.2.hasSprite = true := by
  intro p hp
  obtain ⟨q, hq, hpq⟩ := List.mem_map.mp hp
  have := h q hq
  rw [← hpq]
  simpa [Entity.hasSprite, relabelEntity_children] using this

theorem applyDeskLabels_count (snap : Snapshot) (m : EMap)
    (h : ∀ p ∈ m, p.2.hasSprite = true) :
    (applyDeskLabels snap m).2 = m.length := by
  have : m.filter (fun p => p.2.hasSprite) = m := List.filter_eq_self.mpr h
  simp [applyDeskLabels, this]

/- ------------------------------------------------------------------ -/
/- Connector lemmas                                                    -/
/- ------------------------------------------------------------------ -/

theorem connectorParts_filter_line (s r : String) :
    (connectorParts s r).filter ConnObj.isLine = [ConnObj.line s r] := rfl

theorem msgConn_congr (m1 m2 : EMap) (msg : Message)
    (h : ∀ k, (emGet m1 k).isSome = (emGet m2 k).isSome) :
    msgConn m1 msg = msgConn m2 msg := by
  have hs := h (jsToLower msg.sender)
  have hr := h (jsToLower msg.recipient)
  unfold msgConn
  cases h1 : emGet m1 (jsToLower msg.sender) with
  | none =>
    rw [h1] at hs
    cases h2 : emGet m2 (jsToLower msg.sender) with
    | none => rfl
    | some e => rw [h2] at hs; simp at hs
  | some e =>
    rw [h1] at hs
    cases h2 : emGet m2 (jsToLower msg.sender) with
    | none => rw [h2] at hs; simp at hs
    | some e2 =>
      cases h3 : emGet m1 (jsToLower msg.recipient) with
      | none =>
        rw [h3] at hr
        cases h4 : emGet m2 (jsToLower msg.recipient) with
        | none => rfl
        | some f => rw [h4] at hr; simp at hr
      | some f =>
        rw [h3] at hr
        cases h4 : emGet m2 (jsToLower msg.recipient) with
        | none => rw [h4] at hr; simp at hr
        | some f2 => rfl

theorem buildConnectors_congr (m1 m2 : EMap) (msgs : List Message)
    (h : ∀ k, (emGet m1 k).isSome = (emGet m2 k).isSome) :
    buildConnectors m1 msgs = buildConnectors m2 msgs := by
  unfold buildConnectors
  induction msgs with
  | nil => rfl
  | cons mg ms ih =>
    rw [List.flatMap_cons, List.flatMap_cons, msgConn_congr m1 m2 mg h, ih]

/- ------------------------------------------------------------------ -/
/- Reconciliation-level helper lemmas                                  -/
/- ------------------------------------------------------------------ -/

/-- Well-formedness of the scene state: the map has no duplicate keys (a
JavaScript `Map` invariant) and every desk group carries its nameplate
sprite (every group built by `createAgentDesk` does). -/
def villageWF (st : VState) : Prop :=
  (emKeys st.agentMeshes).Nodup ∧ ∀ p ∈ st.agentMeshes, p.2.hasSprite = true

theorem mem_keys_updateVillage (snap : Snapshot) (st : VState) (a : String) :
    a ∈ emKeys (updateVillage snap st).1.agentMeshes ↔ a ∈ allAgentsList snap := by
  simp only [updateVillage]
  rw [emKeys_applyDeskLabels, mem_keys_removeStale]
  constructor
  · rintro ⟨_, h2⟩
    exact h2
  · intro h
    refine ⟨?_, h⟩
    rw [mem_keys_placeAgents]
    right
    rw [withIdx_map_snd]
    exact h

theorem keys_updateVillage_nodup (snap : Snapshot) (st : VState)
    (h : (emKeys st.agentMeshes).Nodup) :
    (emKeys (updateVillage snap st).1.agentMeshes).Nodup := by
  simp only [updateVillage]
  rw [emKeys_applyDeskLabels]
  exact keys_removeStale_nodup _ _ (keys_placeAgents_nodup _ _ _ _ _ h)

theorem updateVillage_sprite (snap : Snapshot) (st : VState)
    (h : ∀ p ∈ st.agentMeshes, p.2.hasSprite = true) :
    ∀ p ∈ (updateVillage snap st).1.agentMeshes, p.2.hasSprite = true := by
  simp only [updateVillage]
  exact applyDeskLabels_sprite _ _ (removeStale_sprite _ _ (placeAgents_sprite _ _ _ _ _ h))

theorem updateVillage_WF (snap : Snapshot) (st : VState) (h : villageWF st) :
    villageWF (updateVillage snap st).1 :=
  ⟨keys_updateVillage_nodup snap st h.1, updateVillage_sprite snap st h.2⟩

theorem keys_updateVillage_length (snap : Snapshot) (st : VState)
    (h : (emKeys st.agentMeshes).Nodup) :
    (emKeys (updateVillage snap st).1.agentMeshes).length = (allAgentsList snap).length := by
  have hperm : (emKeys (updateVillage snap st).1.agentMeshes).Perm (allAgentsList snap) :=
    (List.perm_ext_iff_of_nodup (keys_updateVillage_nodup snap st h)
      (allAgents_nodup snap)).mpr (mem_keys_updateVillage snap st)
  exact hperm.length_eq

theorem emGet_updateVillage_at_index (snap : Snapshot) (st : VState) (i : Nat)
    (hi : i < (allAgentsList snap).length) :
    ∃ e, emGet (updateVillage snap st).1.agentMeshes
        ((allAgentsList snap).get ⟨i, hi⟩) = some e ∧
      e.angle = layoutAngleQ i (allAgentsList snap).length ∧
      e.radius = layoutRadius (allAgentsList snap).length ∧
      e.y = platformHeight := by
  have hnd : ((withIdx 0 (allAgentsList snap)).map Prod.snd).Nodup := by
    rw [withIdx_map_snd]
    exact allAgents_nodup snap
  have hmem : (i, (allAgentsList snap).get ⟨i, hi⟩) ∈ withIdx 0 (allAgentsList snap) := by
    have := withIdx_mem_get (allAgentsList snap) 0 i hi
    simpa using this
  obtain ⟨e, hg, ha, hr, hy⟩ := placeAgents_get_mem snap (allAgentsList snap).length
    (layoutRadius (allAgentsList snap).length) (withIdx 0 (allAgentsList snap))
    { m := st.agentMeshes, scene := st.sceneAgents, created := [], regens := 0 }
    i ((allAgentsList snap).get ⟨i, hi⟩) hnd hmem
  have hin : (allAgentsList snap).get ⟨i, hi⟩ ∈ allAgentsList snap := List.get_mem _ _ hi
  refine ⟨relabelEntity snap ((allAgentsList snap).get ⟨i, hi⟩) e, ?_, ?_, ?_, ?_⟩
  · simp only [updateVillage]
    rw [emGet_applyDeskLabels, emGet_removeStale_mem _ _ _ hin, hg]
    rfl
  · rw [(relabelEntity_fields snap _ e).1, ha]
  · rw [(relabelEntity_fields snap _ e).2.1, hr]
  · rw [(relabelEntity_fields snap _ e).2.2, hy]

theorem updateVillage_connections (snap : Snapshot) (st : VState) :
    (updateVillage snap st).1.connectionLines =
      buildConnectors (updateVillage snap st).1.agentMeshes snap.allMessages ∧
    (updateVillage snap st).2.connDisposeCalls = 0 := by
  constructor
  · simp only [updateVillage]
    refine (buildConnectors_congr _ _ _ ?_).symm
    intro k
    rw [emGet_applyDeskLabels]
    cases emGet (removeStale (allAgentsList snap)
      (placeAgents snap (allAgentsList snap).length
        (layoutRadius (allAgentsList snap).length) (withIdx 0 (allAgentsList snap))
        { m := st.agentMeshes, scene := st.sceneAgents,
          created := [], regens := 0 }).m).1 k <;> simp
  · rfl

/- ------------------------------------------------------------------ -/
/- Layout arithmetic lemmas                                            -/
/- ------------------------------------------------------------------ -/

theorem layoutRadius_bounds (n : Nat) : 10 ≤ layoutRadius n ∧ layoutRadius n ≤ 20 := by
  unfold layoutRadius
  exact ⟨le_min (by norm_num) (le_max_left _ _), min_le_left _ _⟩

theorem layoutAngleQ_injective (n i j : Nat) (hi : i < n) (hj : j < n)
    (hne : i ≠ j) : layoutAngleQ i n ≠ layoutAngleQ j n := by
  intro h
  have h0 : 0 < n := Nat.lt_of_le_of_lt (Nat.zero_le i) hi
  have hn : (n : ℚ) ≠ 0 := Nat.cast_ne_zero.mpr (Nat.pos_iff_ne_zero.mp h0)
  unfold layoutAngleQ at h
  have h2 : (2 : ℚ) * i / n = 2 * j / n := by linarith
  have h3 : (i : ℚ) = j := by
    field_simp at h2
    exact_mod_cast h2
  exact hne (by exact_mod_cast h3)

/- ------------------------------------------------------------------ -/
/- Connector counting lemmas                                           -/
/- ------------------------------------------------------------------ -/

theorem msgConn_line_count (m : EMap) (mg : Message) :
    ((msgConn m mg).filter ConnObj.isLine).length =
      if !mg.read && (emGet m (jsToLower mg.sender)).isSome &&
          (emGet m (jsToLower mg.recipient)).isSome then 1 else 0 := by
  cases h1 : emGet m (jsToLower mg.sender) with
  | none => simp [msgConn, h1]
  | some e =>
    cases h2 : emGet m (jsToLower mg.recipient) with
    | none => simp [msgConn, h1, h2]
    | some f =>
      cases h3 : mg.read with
      | true => simp [msgConn, h1, h2, h3]
      | false => simp [msgConn, h1, h2, h3, connectorParts_filter_line]

theorem buildConnectors_line_count (m : EMap) (msgs : List Message) :
    ((buildConnectors m msgs).filter ConnObj.isLine).length =
      (msgs.filter (fun mg => !mg.read && (emGet m (jsToLower mg.sender)).isSome &&
        (emGet m (jsToLower mg.recipient)).isSome)).length := by
  induction msgs with
  | nil => rfl
  | cons mg ms ih =>
    unfold buildConnectors at ih ⊢
    rw [List.flatMap_cons, List.filter_append, List.length_append, ih,
        List.filter_cons, msgConn_line_count]
    by_cases hc : (!mg.read && (emGet m (jsToLower mg.sender)).isSome &&
        (emGet m (jsToLower mg.recipient)).isSome) = true
    · rw [if_pos hc, if_pos hc]
      simp [Nat.add_comm]
    · rw [if_neg hc, if_neg hc]
      simp

/- ------------------------------------------------------------------ -/
/- Second-call (idempotence) lemmas                                    -/
/- ------------------------------------------------------------------ -/

theorem withIdx_length {α : Type} (l : List α) (k : Nat) :
    (withIdx k l).length = l.length := by
  have := congrArg List.length (withIdx_map_snd l k)
  simpa using this

theorem removeStale_all_kept (agents : List String) (m : EMap)
    (h : ∀ p ∈ m, p.1 ∈ agents) : (removeStale agents m).1 = m := by
  unfold removeStale
  exact List.filter_eq_self.mpr (fun p hp => by simpa using h p hp)

theorem updateVillage_stable_events (snap : Snapshot) (st : VState)
    (hks : ∀ a, a ∈ emKeys st.agentMeshes ↔ a ∈ allAgentsList snap)
    (hnd : (emKeys st.agentMeshes).Nodup)
    (hsp : ∀ p ∈ st.agentMeshes, p.2.hasSprite = true) :
    (updateVillage snap st).2.created = [] ∧
    (updateVillage snap st).2.removed = [] ∧
    (updateVillage snap st).2.labelRegens = 2 * (allAgentsList snap).length := by
  simp only [updateVillage]
  set agents := allAgentsList snap with hagents
  set acc0 : PlaceAcc := (PlaceAcc.mk st.agentMeshes st.sceneAgents [] 0) with hacc0
  set A := placeAgents snap agents.length (layoutRadius agents.length)
    (withIdx 0 agents) acc0 with hA
  have hall : ∀ p ∈ withIdx 0 agents, p.2 ∈ emKeys acc0.m := by
    intro p hp
    apply (hks p.2).mpr
    have h2 : p.2 ∈ (withIdx 0 agents).map Prod.snd := List.mem_map_of_mem Prod.snd hp
    rwa [withIdx_map_snd] at h2
  obtain ⟨hcr, hrg, hkeq⟩ := placeAgents_all_present snap agents.length
    (layoutRadius agents.length) (withIdx 0 agents) acc0 hall
  rw [← hA] at hcr hrg hkeq
  have hallkept : ∀ p ∈ A.m, p.1 ∈ agents := by
    intro p hp
    have h2 : p.1 ∈ emKeys A.m := List.mem_map_of_mem Prod.fst hp
    rw [hkeq] at h2
    exact (hks p.1).mp h2
  have hkept : (removeStale agents A.m).1 = A.m :=
    removeStale_all_kept agents A.m hallkept
  have hsp2 : ∀ p ∈ (removeStale agents A.m).1, p.2.hasSprite = true :=
    removeStale_sprite _ _ (placeAgents_sprite _ _ _ _ _ hsp)
  have hmlen : A.m.length = agents.length := by
    have h1 : (emKeys A.m).length = (emKeys st.agentMeshes).length := by rw [hkeq]
    have hperm : (emKeys st.agentMeshes).Perm agents :=
      (List.perm_ext_iff_of_nodup hnd (allAgents_nodup snap)).mpr hks
    have h2 : (emKeys st.agentMeshes).length = agents.length := hperm.length_eq
    have h3 : (emKeys A.m).length = A.m.length := by simp [emKeys]
    omega
  refine ⟨hcr, removeStale_removed_nil agents A.m hallkept, ?_⟩
  rw [hrg, applyDeskLabels_count _ _ hsp2, hkept, hmlen, withIdx_length]
  simp [hacc0]
  omega

/- ------------------------------------------------------------------ -/
/- Concrete cycle inputs used by witnesses and counterexamples         -/
/- ------------------------------------------------------------------ -/

/-- The empty scene before the first poll (initial module state). -/
def vEmpty : VState := { agentMeshes := [], sceneAgents := [], connectionLines := [] }

/-- A configuration as previously applied. -/
def cfgOld : Config := { user := "carol", mailbox := "old.db", coworker := none, avatar := none }

/-- A configuration arriving in the failing cycle. -/
def cfgNew : Config := { user := "carol", mailbox := "new.db", coworker := none, avatar := none }

/-- An inbox message held over from the previous successful cycle. -/
def msgOld : Message :=
  { id := 1, sender := "bob", recipient := "carol", message := "hi", timestamp := 5, read := false }

/-- Module state after a previous successful cycle. -/
def appOld : AppData :=
  { config := cfgOld, messages := [msgOld], recipients := ["bob"], allMessages := [msgOld] }

/-- A cycle where all four fetches resolve and the configuration body parses,
but the inbox body fails to parse. -/
def fetchC4 : FetchResults :=
  { ok := true
    configJson := Except.ok cfgNew
    messagesJson := Except.error ()
    coworkersJson := Except.ok (Payload.arr ["bob"])
    allMessagesJson := Except.ok (Payload.arr [msgOld]) }

/-- A fully successful cycle used to witness the amended apply behavior. -/
def fetchW4 : FetchResults :=
  { ok := true
    configJson := Except.ok cfgNew
    messagesJson := Except.ok (Payload.arr [msgOld])
    coworkersJson := Except.ok (Payload.arr ["bob"])
    allMessagesJson := Except.ok (Payload.arr [msgOld]) }

/- ------------------------------------------------------------------ -/
/- Claim theorems                                                      -/
/- ------------------------------------------------------------------ -/

/-- C4 counterexample: with the previous state `appOld`, a cycle whose four
fetches all resolve, whose configuration body parses to `cfgNew`, and whose
inbox body fails to parse (`messagesJson = error`), still changes state:
`config` is updated to the new value while the other three variables keep
their previous values — a partial combination the claim rules out (the
claim asserts that when parsing any one payload fails, none of the four
state variables changes that cycle). -/
theorem C4_counterexample :
    fetchC4.messagesJson = Except.error () ∧
    loadData fetchC4 appOld ≠ appOld ∧
    (loadData fetchC4 appOld).config = cfgNew ∧
    (loadData fetchC4 appOld).config ≠ appOld.config ∧
    (loadData fetchC4 appOld).messages = appOld.messages ∧
    (loadData fetchC4 appOld).recipients = appOld.recipients ∧
    (loadData fetchC4 appOld).allMessages = appOld.allMessages := by
  refine ⟨rfl, ?_, rfl, ?_, rfl, rfl, rfl⟩ <;> decide

/-- C4 (amended): within one refresh cycle, if the combined fetch fails or
the configuration body fails to parse, none of the four state variables
changes; once the configuration body parses, `config` is applied
immediately, and the inbox, roster and full-history variables are then
applied only atomically together — either all three keep their previous
values (some later parse failed) or all three are replaced by the newly
parsed payloads. -/
theorem C4_amended_apply (r : FetchResults) (st : AppData) :
    (r.ok = false → loadData r st = st) ∧
    (∀ e, r.configJson = Except.error e → loadData r st = st) ∧
    (∀ cfg, r.ok = true → r.configJson = Except.ok cfg →
      (loadData r st).config = cfg ∧
      (((loadData r st).messages = st.messages ∧
        (loadData r st).recipients = st.recipients ∧
        (loadData r st).allMessages = st.allMessages) ∨
       (∃ md rd ad, r.messagesJson = Except.ok md ∧ r.coworkersJson = Except.ok rd ∧
         r.allMessagesJson = Except.ok ad ∧
         (loadData r st).messages = payloadList md ∧
         (loadData r st).recipients = payloadList rd ∧
         (loadData r st).allMessages = payloadList ad))) := by
  obtain ⟨ok, cj, mj, rj, aj⟩ := r
  refine ⟨?_, ?_, ?_⟩
  · intro h
    subst h
    rfl
  · intro e he
    cases ok
    · rfl
    · cases cj with
      | error u => rfl
      | ok c => simp at he
  · intro cfg hok hcj
    subst hok
    cases cj with
    | error u => simp at hcj
    | ok c =>
      have hc : c = cfg := by
        injection hcj
      subst hc
      cases mj with
      | error u => exact ⟨rfl, Or.inl ⟨rfl, rfl, rfl⟩⟩
      | ok md =>
        cases rj with
        | error u => exact ⟨rfl, Or.inl ⟨rfl, rfl, rfl⟩⟩
        | ok rd =>
          cases aj with
          | error u => exact ⟨rfl, Or.inl ⟨rfl, rfl, rfl⟩⟩
          | ok ad => exact ⟨rfl, Or.inr ⟨md, rd, ad, rfl, rfl, rfl, rfl, rfl, rfl⟩⟩

theorem C4_amended_apply_witness :
    (loadData fetchW4 appOld).config = cfgNew ∧
    (((loadData fetchW4 appOld).messages = appOld.messages ∧
      (loadData fetchW4 appOld).recipients = appOld.recipients ∧
      (loadData fetchW4 appOld).allMessages = appOld.allMessages) ∨
     (∃ md rd ad, fetchW4.messagesJson = Except.ok md ∧
       fetchW4.coworkersJson = Except.ok rd ∧
       fetchW4.allMessagesJson = Except.ok ad ∧
       (loadData fetchW4 appOld).messages = payloadList md ∧
       (loadData fetchW4 appOld).recipients = payloadList rd ∧
       (loadData fetchW4 appOld).allMessages = payloadList ad)) :=
  (C4_amended_apply fetchW4 appOld).2.2 cfgNew rfl rfl

/-- C8: when all four bodies parse but the inbox, roster, or full-history
body is error-shaped JSON (an object where an array was expected), that
resource alone is replaced by the empty collection for the cycle; the other
resources still receive their parsed values (`Array.isArray` guards each
independently), the configuration is applied, and the model function is
total, so no exception escapes the cycle. -/
theorem C8_error_shaped_payload (st : AppData) (cfg : Config)
    (m a : Payload Message) (r : Payload String) :
    (m = Payload.obj →
      (loadData ⟨true, .ok cfg, .ok m, .ok r, .ok a⟩ st).messages = []) ∧
    (r = Payload.obj →
      (loadData ⟨true, .ok cfg, .ok m, .ok r, .ok a⟩ st).recipients = []) ∧
    (a = Payload.obj →
      (loadData ⟨true, .ok cfg, .ok m, .ok r, .ok a⟩ st).allMessages = []) ∧
    (loadData ⟨true, .ok cfg, .ok m, .ok r, .ok a⟩ st).config = cfg ∧
    (loadData ⟨true, .ok cfg, .ok m, .ok r, .ok a⟩ st).messages = payloadList m ∧
    (loadData ⟨true, .ok cfg, .ok m, .ok r, .ok a⟩ st).recipients = payloadList r ∧
    (loadData ⟨true, .ok cfg, .ok m, .ok r, .ok a⟩ st).allMessages = payloadList a := by
  refine ⟨?_, ?_, ?_, rfl, rfl, rfl, rfl⟩ <;> (intro h; subst h; rfl)

theorem C8_error_shaped_payload_witness :
    ((Payload.obj : Payload String) = Payload.obj →
      (loadData ⟨true, .ok cfgNew, .ok (Payload.arr [msgOld]), .ok Payload.obj,
        .ok (Payload.arr [msgOld])⟩ appOld).recipients = []) ∧
    (loadData ⟨true, .ok cfgNew, .ok (Payload.arr [msgOld]), .ok Payload.obj,
      .ok (Payload.arr [msgOld])⟩ appOld).recipients = [] ∧
    (loadData ⟨true, .ok cfgNew, .ok (Payload.arr [msgOld]), .ok Payload.obj,
      .ok (Payload.arr [msgOld])⟩ appOld).messages = [msgOld] ∧
    (loadData ⟨true, .ok cfgNew, .ok (Payload.arr [msgOld]), .ok Payload.obj,
      .ok (Payload.arr [msgOld])⟩ appOld).allMessages = [msgOld] := by
  have h := C8_error_shaped_payload appOld cfgNew (Payload.arr [msgOld])
    (Payload.arr [msgOld]) Payload.obj
  exact ⟨h.2.1, h.2.1 rfl, h.2.2.2.2.1, h.2.2.2.2.2.2⟩

/-- C9: the nameplate rendered by the label pass gives the alert (red)
state priority: whenever the count of unread messages from the agent to
the viewer is positive the label is the alert state carrying that count
(regardless of the viewer-sent count); the informational state occurs
exactly when the alert count is zero and the viewer-sent unread count is
positive; the neutral state occurs exactly when both counts are zero. -/
theorem C9_badge_priority (user : String) (msgs : List Message) (name : String)
    (tool : Option String) :
    (0 < unreadFromCount user msgs name →
      (renderDeskLabel user msgs name tool).style = LabelStyle.alert ∧
      (renderDeskLabel user msgs name tool).count =
        some (unreadFromCount user msgs name)) ∧
    ((renderDeskLabel user msgs name tool).style = LabelStyle.info ↔
      unreadFromCount user msgs name = 0 ∧ 0 < unreadToCount user msgs name) ∧
    ((renderDeskLabel user msgs name tool).style = LabelStyle.neutral ↔
      unreadFromCount user msgs name = 0 ∧ unreadToCount user msgs name = 0) := by
  unfold renderDeskLabel
  by_cases ha : 0 < unreadFromCount user msgs name
  · simp [ha]
    omega
  · by_cases hi : 0 < unreadToCount user msgs name
    · simp [ha, hi]
      omega
    · simp [ha, hi]
      omega

/-- One unread message each way between the viewer `u` and the agent `b`. -/
def msgsC9 : List Message :=
  [{ id := 1, sender := "b", recipient := "u", message := "ping", timestamp := 1, read := false },
   { id := 2, sender := "u", recipient := "b", message := "pong", timestamp := 2, read := false }]

theorem C9_badge_priority_witness :
    (renderDeskLabel "u" msgsC9 "b" none).style = LabelStyle.alert ∧
    (renderDeskLabel "u" msgsC9 "b" none).count = some (unreadFromCount "u" msgsC9 "b") :=
  (C9_badge_priority "u" msgsC9 "b" none).1 (by decide)

/-- C10: the identity-to-color assignment is the pure function returning the
palette entry at index `|h| mod P`, where `h` is the rolling hash obtained
by iterating `hash = charCode + ((hash << 5) - hash)` (32-bit shift) from 0
over the characters, and `P = 10` is the palette size; equal identity
strings always receive the same color. -/
theorem C10_color_contract (s : String) :
    getAgentColor s = agentColors.getD (specPaletteIndex s) 0 ∧
    specPaletteIndex s = (specHashFrom 0 s.data).natAbs % 10 ∧
    specPaletteIndex s < agentColors.length ∧
    ∀ t : String, t = s → getAgentColor t = getAgentColor s := by
  refine ⟨?_, rfl, ?_, ?_⟩
  · unfold getAgentColor specPaletteIndex
    rw [stringHash_eq_specHash]
  · exact Nat.mod_lt _ (by norm_num [agentColors])
  · intro t ht
    rw [ht]

/-- Snapshot whose full history mentions an identity (`Dave`) that appears
neither as the user, nor in the roster, nor in any inbox message. -/
def snapC1x : Snapshot :=
  { user := "carol", recipients := [], messages := [],
    allMessages := [{ id := 7, sender := "carol", recipient := "Dave",
                      message := "hey", timestamp := 3, read := false }],
    avatars := [] }

/-- C1 counterexample: reconciliation computes the identity set from the
inbox (`messages`), not from the full message history (`allMessages`): with
user `carol`, an empty roster and inbox, and a full-history message to
`Dave`, the claim requires an entity for `dave`, but after reconciliation
the entity map holds exactly one entity, `carol`, and none for `dave`. -/
theorem C1_counterexample :
    (∃ m ∈ snapC1x.allMessages, jsToLower m.recipient = "dave") ∧
    emGet (updateVillage snapC1x vEmpty).1.agentMeshes "dave" = none ∧
    emKeys (updateVillage snapC1x vEmpty).1.agentMeshes = ["carol"] := by
  decide

/-- C1 (amended): for every poll cycle, the authoritative identity set
computed by reconciliation equals the case-folded union of the local user,
the roster entries, and the sender and recipient of every message in the
inbox (the messages addressed to the local user) — not the full message
history — and after reconciliation the identity-to-entity map contains
exactly one entity per member of that set (its key list has no duplicates
and holds precisely the members). -/
theorem C1_amended_identity_set (snap : Snapshot) (st : VState)
    (hnd : (emKeys st.agentMeshes).Nodup) :
    (emKeys (updateVillage snap st).1.agentMeshes).Nodup ∧
    ∀ a, a ∈ emKeys (updateVillage snap st).1.agentMeshes ↔
      (a = jsToLower snap.user ∨ a ∈ snap.recipients.map jsToLower ∨
       ∃ m ∈ snap.messages, a = jsToLower m.sender ∨ a = jsToLower m.recipient) :=
  ⟨keys_updateVillage_nodup snap st hnd,
   fun a => (mem_keys_updateVillage snap st a).trans (mem_allAgents snap a)⟩

/-- Snapshot with a user, one roster entry and one inbox message. -/
def snapC1w : Snapshot :=
  { user := "Ann", recipients := ["Bo"],
    messages := [{ id := 2, sender := "Zed", recipient := "Ann",
                   message := "yo", timestamp := 1, read := false }],
    allMessages := [], avatars := [] }

theorem C1_amended_identity_set_witness :
    (emKeys (updateVillage snapC1w vEmpty).1.agentMeshes).Nodup ∧
    ∀ a, a ∈ emKeys (updateVillage snapC1w vEmpty).1.agentMeshes ↔
      (a = jsToLower snapC1w.user ∨ a ∈ snapC1w.recipients.map jsToLower ∨
       ∃ m ∈ snapC1w.messages, a = jsToLower m.sender ∨ a = jsToLower m.recipient) :=
  C1_amended_identity_set snapC1w vEmpty (by simp [vEmpty, emKeys])

/-- C2: after effect rebuilding, the number of connectors built (the `line`
objects on `connectionLines`) equals the number of messages in the history
with `read = false` whose sender and recipient both resolve to a live
entity in the reconciled entity map; and per message, an unread message
with both endpoints present contributes exactly one connector line, while
a read message or one with a missing endpoint contributes zero. -/
theorem C2_connector_count (snap : Snapshot) (st : VState) :
    ((updateVillage snap st).1.connectionLines.filter ConnObj.isLine).length =
      (snap.allMessages.filter (fun mg => !mg.read &&
        (emGet (updateVillage snap st).1.agentMeshes (jsToLower mg.sender)).isSome &&
        (emGet (updateVillage snap st).1.agentMeshes (jsToLower mg.recipient)).isSome)).length ∧
    ∀ mg : Message,
      ((msgConn (updateVillage snap st).1.agentMeshes mg).filter ConnObj.isLine).length =
        if !mg.read &&
            (emGet (updateVillage snap st).1.agentMeshes (jsToLower mg.sender)).isSome &&
            (emGet (updateVillage snap st).1.agentMeshes (jsToLower mg.recipient)).isSome
        then 1 else 0 := by
  refine ⟨?_, fun mg => msgConn_line_count _ mg⟩
  rw [(updateVillage_connections snap st).1, buildConnectors_line_count]

/-- C3: after reconciliation, the identity at stable iteration index `i` of
the authoritative list of size `N` has an entity placed at angle
`(2*i/N - 1/2) * pi` — that is `(i/N) * 2*pi` plus the fixed offset
`-pi/2` — on the circle of radius `min 20 (max 10 (3*N))`, which is always
clamped to `[10, 20]`, at the fixed platform height `2`; and distinct
indices below `N` receive distinct angles. -/
theorem C3_circular_layout (snap : Snapshot) (st : VState) (i : Nat)
    (hi : i < (allAgentsList snap).length) :
    (∃ e, emGet (updateVillage snap st).1.agentMeshes
        ((allAgentsList snap).get ⟨i, hi⟩) = some e ∧
      e.angle = layoutAngleQ i (allAgentsList snap).length ∧
      e.radius = layoutRadius (allAgentsList snap).length ∧
      e.y = platformHeight) ∧
    10 ≤ layoutRadius (allAgentsList snap).length ∧
    layoutRadius (allAgentsList snap).length ≤ 20 ∧
    (∀ j, j < (allAgentsList snap).length → i ≠ j →
      layoutAngleQ i (allAgentsList snap).length ≠
        layoutAngleQ j (allAgentsList snap).length) :=
  ⟨emGet_updateVillage_at_index snap st i hi, (layoutRadius_bounds _).1,
   (layoutRadius_bounds _).2, fun j hj hne => layoutAngleQ_injective _ i j hi hj hne⟩

/-- Snapshot with three authoritative identities. -/
def snapC3 : Snapshot :=
  { user := "Ann", recipients := ["Bo", "Cy"], messages := [],
    allMessages := [], avatars := [] }

theorem C3_circular_layout_witness :
    (∃ e, emGet (updateVillage snapC3 vEmpty).1.agentMeshes
        ((allAgentsList snapC3).get ⟨1, by decide⟩) = some e ∧
      e.angle = layoutAngleQ 1 (allAgentsList snapC3).length ∧
      e.radius = layoutRadius (allAgentsList snapC3).length ∧
      e.y = platformHeight) ∧
    10 ≤ layoutRadius (allAgentsList snapC3).length ∧
    layoutRadius (allAgentsList snapC3).length ≤ 20 ∧
    (∀ j, j < (allAgentsList snapC3).length → 1 ≠ j →
      layoutAngleQ 1 (allAgentsList snapC3).length ≠
        layoutAngleQ j (allAgentsList snapC3).length) :=
  C3_circular_layout snapC3 vEmpty 1 (by decide)

theorem villageWF_vEmpty : villageWF vEmpty := by
  unfold villageWF vEmpty emKeys
  simp

/-- Snapshot with a single identity (the user). -/
def snapC5 : Snapshot :=
  { user := "ann", recipients := [], messages := [], allMessages := [], avatars := [] }

/-- C5 counterexample: reconciling twice with the identical snapshot
creates and destroys nothing on the second call, but the second call still
regenerates nameplate textures — two regenerations for the single entity
(one in the survivor-update pass, one in the final label pass) — whereas
the claim requires zero label regenerations on an identical snapshot. -/
theorem C5_counterexample :
    (updateVillage snapC5 (updateVillage snapC5 vEmpty).1).2.created = [] ∧
    (updateVillage snapC5 (updateVillage snapC5 vEmpty).1).2.removed = [] ∧
    (updateVillage snapC5 (updateVillage snapC5 vEmpty).1).2.labelRegens = 2 ∧
    (updateVillage snapC5 (updateVillage snapC5 vEmpty).1).2.labelRegens ≠ 0 := by
  decide

/-- C5 (amended): reconciliation is idempotent for the entity set — calling
it a second time with a snapshot identical to the previous call creates no
entity and destroys no entity — but nameplate textures are regenerated
unconditionally on every call, with no comparison against the previous
render: the second call performs exactly `2 * N` regenerations for the `N`
authoritative identities (each survivor is re-rendered once in the update
pass and once in the label pass). -/
theorem C5_amended_idempotence (snap : Snapshot) (st : VState) (h : villageWF st) :
    (updateVillage snap (updateVillage snap st).1).2.created = [] ∧
    (updateVillage snap (updateVillage snap st).1).2.removed = [] ∧
    (updateVillage snap (updateVillage snap st).1).2.labelRegens =
      2 * (allAgentsList snap).length :=
  updateVillage_stable_events snap (updateVillage snap st).1
    (mem_keys_updateVillage snap st)
    (keys_updateVillage_nodup snap st h.1)
    (updateVillage_sprite snap st h.2)

theorem C5_amended_idempotence_witness :
    (updateVillage snapC5 (updateVillage snapC5 vEmpty).1).2.created = [] ∧
    (updateVillage snapC5 (updateVillage snapC5 vEmpty).1).2.removed = [] ∧
    (updateVillage snapC5 (updateVillage snapC5 vEmpty).1).2.labelRegens =
      2 * (allAgentsList snapC5).length :=
  C5_amended_idempotence snapC5 vEmpty villageWF_vEmpty

/-- First-cycle snapshot containing `bob` in the roster. -/
def snapC6a : Snapshot :=
  { user := "carol", recipients := ["bob"], messages := [], allMessages := [], avatars := [] }

/-- Second-cycle snapshot where `bob` has left the roster. -/
def snapC6b : Snapshot :=
  { user := "carol", recipients := [], messages := [], allMessages := [], avatars := [] }

/-- The resources the disposal traverse actually releases for one desk
group: geometry and material of every child with `isMesh`; nothing of the
sprite or the light. -/
def deskDisposedResources : List String := deskChildren.flatMap disposeChild

/-- C6: evaluated at the failing input (an entity for `bob` created in one
cycle and removed in the next), the removal pass does delete the map entry
and the scene root, and disposes every mesh geometry and material, but it
never disposes the nameplate sprite's material or its canvas texture — the
traverse only handles children with `isMesh`, and a `THREE.Sprite` is not a
mesh — so the disposal required by the claim (and by the source's own
"prevent memory leaks" comment) is incomplete. -/
theorem C6_sprite_leak :
    (updateVillage snapC6b (updateVillage snapC6a vEmpty).1).2.removed =
      [("bob", deskDisposedResources)] ∧
    "bob" ∉ emKeys (updateVillage snapC6b (updateVillage snapC6a vEmpty).1).1.agentMeshes ∧
    "bob" ∉ (updateVillage snapC6b (updateVillage snapC6a vEmpty).1).1.sceneAgents ∧
    "deskTopGeo" ∈ deskDisposedResources ∧
    "deskMat" ∈ deskDisposedResources ∧
    "kbGeo" ∈ deskDisposedResources ∧
    "spriteMat" ∉ deskDisposedResources ∧
    "spriteTex" ∉ deskDisposedResources := by
  decide

/-- Scene state still holding the previous cycle's connector objects (one
line and its four direction markers). -/
def stC7 : VState :=
  { agentMeshes := [], sceneAgents := [],
    connectionLines := connectorParts "alice" "bob" }

/-- Snapshot for the cycle following `stC7`. -/
def snapC7 : Snapshot :=
  { user := "u", recipients := [], messages := [], allMessages := [], avatars := [] }

/-- C7 counterexample: with connector objects left over from the previous
cycle, the next reconciliation removes them from the scene and empties the
array, but performs zero `dispose()` calls while doing so — the claim's
requirement that their GPU resources be disposed is not met by
`clearConnections`, which only calls `scene.remove`. -/
theorem C7_counterexample :
    stC7.connectionLines ≠ [] ∧
    (updateVillage snapC7 stC7).2.connDisposeCalls = 0 ∧
    (updateVillage snapC7 stC7).1.connectionLines = [] := by
  decide

/-- C7 (amended): transient effects never persist across poll cycles — at
the start of every reconciliation, every connector and direction marker
from the previous cycle is removed from the scene and the tracking array
is reset before any new connector is created, so the resulting connector
set is exactly the one built from the current snapshot, independent of
whatever connectors existed before; however, no `dispose()` call is made
on the removed objects' geometries or materials. -/
theorem C7_amended_teardown (snap : Snapshot) (st : VState) :
    (updateVillage snap st).1.connectionLines =
      buildConnectors (updateVillage snap st).1.agentMeshes snap.allMessages ∧
    (updateVillage snap st).1.connectionLines =
      (updateVillage snap { st with connectionLines := [] }).1.connectionLines ∧
    (updateVillage snap st).2.connDisposeCalls = 0 :=
  ⟨(updateVillage_connections snap st).1, rfl, rfl⟩

theorem C10_color_contract_witness :
    getAgentColor "alice" = agentColors.getD (specPaletteIndex "alice") 0 ∧
    specPaletteIndex "alice" = (specHashFrom 0 "alice".data).natAbs % 10 ∧
    specPaletteIndex "alice" < agentColors.length ∧
    getAgentColor "alice" = getAgentColor "alice" :=
  ⟨(C10_color_contract "alice").1, (C10_color_contract "alice").2.1,
   (C10_color_contract "alice").2.2.1, (C10_color_contract "alice").2.2.2 "alice" rfl⟩
